import Mathlib

/-!
Verification development for the EVDS scraper (src/evds_scraper/scraper.py).

The file shallowly embeds the pure decision logic of the scraper:

* `select_base` — the generic selection resolver `EVDSScraper._select_base`
  (scraper.py lines 129-164).  Candidates are an abstract type `α` together
  with a caller-supplied `getText : α → String` and `click : α → β`; the
  Python `Union[str, int]` selector becomes `SelectorValue`.  The Python
  `if not selected` test is modelled as an `Option` check: at every call
  site of `_select_base` in the repository the candidates are WebElements or
  non-empty dicts, which are always truthy, so falsiness coincides with
  `None`.  The surrounding `try/except` can only fire from the
  driver-supplied callbacks, which are outside the embedded logic.

* `parse_table` — the incremental table reader `EVDSScraper.parse_table`
  (scraper.py lines 601-682).  The browser is abstracted as
  `batches : Nat → List (List String)`: `batches i` is the list of visible
  rows (each a list of raw cell texts) returned by the i-th execution of
  `wait_for_elements` in the scroll loop; the scroll advance is the step
  from `batches i` to `batches (i+1)`.  The unbounded `while` loop becomes
  a fuel-indexed runner `parseTableLoop`: a `none` result means the loop is
  still running after `fuel` iterations, `some data` means the loop exited
  returning `data`.  Python's `str.strip`, `in` (substring), `endswith` and
  dict assignment are modelled character-list-level by `pyStrip`,
  `pyInStr`, `pyEndsWith` and `dictInsert`.

* `export_configuration` — scraper.py lines 771-810, modelled as the pair
  (output path, written document), the document being the
  (language, variables) payload of the JSON file.
-/

/-- Python `str.strip()`: drop leading and trailing whitespace
(scraper.py uses `.strip()` on cell and header texts). -/
def pyStrip (s : String) : String :=
  String.mk (((s.toList.dropWhile Char.isWhitespace).reverse.dropWhile
      Char.isWhitespace).reverse)

/-- Check that `n` is a leading segment of `l` (character lists). -/
def leadsList : List Char → List Char → Bool
  | [], _ => true
  | _ :: _, [] => false
  | a :: as, b :: bs => (a == b) && leadsList as bs

/-- Helper for Python substring containment over character lists. -/
def substrAux (n : List Char) : List Char → Bool
  | [] => n.isEmpty
  | c :: rest => leadsList n (c :: rest) || substrAux n rest

/-- Python `needle in hay` for strings: contiguous substring containment. -/
def pyInStr (needle hay : String) : Bool :=
  substrAux needle.toList hay.toList

/-- Python `s.endswith(suffix)`. -/
def pyEndsWith (s suffix : String) : Bool :=
  leadsList suffix.toList.reverse s.toList.reverse

/-- The Python `Union[str, int]` selector value taken by `_select_base`. -/
inductive SelectorValue where
  | str (s : String)
  | int (n : Int)

/-- First pass of `_select_base` for a text selector (scraper.py 140-144):
scan the candidates in order and pick the first whose display text is
exactly equal to the selector. -/
def findExact {α : Type} (t : String) (getText : α → String) :
    List α → Option α
  | [] => none
  | e :: rest =>
    if t = getText e then some e else findExact t getText rest

/-- Second pass of `_select_base` for a text selector (scraper.py 147-152):
scan the candidates in order and pick the first satisfying bidirectional
substring containment (`selector_value in text or text in selector_value`). -/
def findContained {α : Type} (t : String) (getText : α → String) :
    List α → Option α
  | [] => none
  | e :: rest =>
    if pyInStr t (getText e) || pyInStr (getText e) t then some e
    else findContained t getText rest

/-- The candidate selected by `_select_base` (scraper.py 136-159), before
the click.  A text selector tries the exact scan and only on its failure
the containment scan; an integer selector `n` with `1 <= n <= len(elements)`
takes `elements[n - 1]` directly (no text function is consulted), any other
integer leaves `selected = None`. -/
def select_base_selected {α : Type} (v : SelectorValue) (elements : List α)
    (getText : α → String) : Option α :=
  match v with
  | SelectorValue.str t =>
    match findExact t getText elements with
    | some e => some e
    | none => findContained t getText elements
  | SelectorValue.int n =>
    if 1 ≤ n ∧ n ≤ (elements.length : Int) then elements[(n - 1).toNat]?
    else none

/-- `_select_base` (scraper.py 129-164): if no candidate was selected the
method logs and returns `None` (here `none`), otherwise it returns
`click_fn(selected)`. -/
def select_base {α β : Type} (v : SelectorValue) (elements : List α)
    (getText : α → String) (click : α → β) : Option β :=
  (select_base_selected v elements getText).map click

/-- The alternate target key of `parse_table` (scraper.py 608-613): when
`begin_date.count('-') == 1`, split at the hyphen into `month, year` and
build `f"{year}-{month}"`; otherwise no alternate exists.  Under the
single-hyphen guard, `takeWhile`/`dropWhile` at the unique hyphen give
exactly the two components of Python's `begin_date.split('-')`. -/
def altKey (beginDate : String) : Option String :=
  if beginDate.toList.count '-' = 1 then
    some (String.mk ((beginDate.toList.dropWhile (fun c => c ≠ '-')).tail)
      ++ "-" ++ String.mk (beginDate.toList.takeWhile (fun c => c ≠ '-')))
  else none

/-- The row-acceptance test of `parse_table` (scraper.py 661):
`row_date == begin_date or (alternative_date and row_date == alternative_date)`.
A present alternate always contains a hyphen, hence is truthy. -/
def matchesTarget (beginDate : String) (alt : Option String)
    (rowDate : String) : Bool :=
  decide (rowDate = beginDate) ||
    match alt with
    | none => false
    | some a => decide (rowDate = a)

/-- Python dict assignment `d[k] = v` on an insertion-ordered dict,
modelled on an association list: an existing key is updated in place,
a new key is appended. -/
def dictInsert (d : List (String × String)) (k v : String) :
    List (String × String) :=
  if d.any (fun p => p.1 = k) then
    d.map (fun p => if p.1 = k then (k, v) else p)
  else d ++ [(k, v)]

/-- The `row_data` construction of `parse_table` (scraper.py 653-656):
`for idx, cell in enumerate(cells): if idx < len(column_names):
row_data[column_names[idx]] = cell.text.strip()`. -/
def buildRowData (columnNames cells : List String) :
    List (String × String) :=
  cells.enum.foldl
    (fun d p =>
      match columnNames[p.1]? with
      | some name => dictInsert d name (pyStrip p.2)
      | none => d) []

/-- The loop state of `parse_table`: `processed_rows` (line 632, a set that
the source checks for membership but never adds to), the accumulated `data`
list (line 633) and the `found_begin_date` flag (line 634).  The `found`
field doubling as the inner `break` marker reflects that after the `break`
on line 664 the remaining rows of the batch are not processed. -/
structure ReaderState where
  processedRows : List String
  data : List (List (String × String))
  found : Bool
deriving DecidableEq

/-- The body of the `for row in rows` loop of `parse_table`
(scraper.py 643-668) for one raw row, given as the list of its cells'
texts.  `if not cells: continue`; `row_date = cells[0].text.strip()`;
a row with a non-empty key not in `processed_rows` and with at least
`len(column_names)` cells is appended to `data`, and terminates the read
when its key matches the target or the alternate. -/
def processRow (columnNames : List String) (beginDate : String)
    (alt : Option String) (st : ReaderState) (cells : List String) :
    ReaderState :=
  if st.found then st
  else
    match cells with
    | [] => st
    | c0 :: _ =>
      if pyStrip c0 ≠ "" ∧ pyStrip c0 ∉ st.processedRows then
        if columnNames.length ≤ cells.length then
          if matchesTarget beginDate alt (pyStrip c0) then
            { st with data := st.data ++ [buildRowData columnNames cells],
                      found := true }
          else
            { st with data := st.data ++ [buildRowData columnNames cells] }
        else st
      else st

/-- One execution of the `for row in rows` loop over a fetched batch. -/
def processBatch (columnNames : List String) (beginDate : String)
    (alt : Option String) (st : ReaderState) (rows : List (List String)) :
    ReaderState :=
  rows.foldl (processRow columnNames beginDate alt) st

/-- Fuel-indexed run of the `while not found_begin_date` loop of
`parse_table` (scraper.py 636-675).  Each iteration fetches the currently
visible rows (`batches i`), processes them, and either returns the
accumulated `data` (the flag was set) or scrolls (`i + 1`) and repeats.
`none` means the loop is still running after `fuel` iterations — the
source loop itself has no bound of any kind. -/
def parseTableLoop (columnNames : List String) (beginDate : String)
    (alt : Option String) (batches : Nat → List (List String)) :
    Nat → Nat → ReaderState → Option (List (List (String × String)))
  | 0, _, _ => none
  | fuel + 1, i, st =>
    let st1 := processBatch columnNames beginDate alt st (batches i)
    if st1.found then some st1.data
    else parseTableLoop columnNames beginDate alt batches fuel (i + 1) st1

/-- `parse_table` (scraper.py 601-682) run for at most `fuel` loop
iterations: the alternate key is derived from `begin_date`, and the loop
starts from an empty seen-set, empty data and an unset flag. -/
def parse_table (fuel : Nat) (columnNames : List String)
    (beginDate : String) (batches : Nat → List (List String)) :
    Option (List (List (String × String))) :=
  parseTableLoop columnNames beginDate (altKey beginDate) batches fuel 0
    ⟨[], [], false⟩

/-- A raw row sets `found_begin_date` when processed with the empty
`processed_rows` set: it has a first cell, its stripped key is non-empty,
it has at least as many cells as there are column names, and its key
matches the target or the alternate. -/
def rowTriggers (columnNames : List String) (beginDate : String)
    (alt : Option String) (cells : List String) : Bool :=
  match cells with
  | [] => false
  | c0 :: _ =>
    decide (pyStrip c0 ≠ "") &&
      decide (columnNames.length ≤ cells.length) &&
      matchesTarget beginDate alt (pyStrip c0)

/-- The dynamically-typed value returned by `parse_table`: the success path
(line 678) returns the bare Python list `data`; only the `except` handler
(line 682) returns the dict `{"columns": [], "data": [], "row_count": 0}`. -/
inductive PyTableVal where
  | plist (rows : List (List (String × String)))
  | pdict (columns : List String) (data : List (List (String × String)))
      (rowCount : Nat)
deriving DecidableEq

/-- A value stored under a key of the result mapping built by `scrape`. -/
inductive PyField where
  | rows (r : List (List (String × String)))
  | cols (c : List String)
  | num (n : Nat)
  | expl (e : List (List (String × String)))
deriving DecidableEq

/-- Python subscripting `table_data[key]` as performed by `scrape`
(lines 475-476): on a dict it looks the key up; on a list a string index
raises `TypeError`, modelled as `none`. -/
def pySubscript (v : PyTableVal) (key : String) : Option PyField :=
  match v with
  | PyTableVal.plist _ => none
  | PyTableVal.pdict c d n =>
    if key = "data" then some (PyField.rows d)
    else if key = "columns" then some (PyField.cols c)
    else if key = "row_count" then some (PyField.num n)
    else none

/-- The value returned by `parse_table` as seen by `scrape`: the loop
result wrapped as the Python list of line 678 (`return data`). -/
def parseTableReturn (fuel : Nat) (columnNames : List String)
    (beginDate : String) (batches : Nat → List (List String)) :
    Option PyTableVal :=
  (parse_table fuel columnNames beginDate batches).map PyTableVal.plist

/-- The dict branch of `scrape` (scraper.py 473-479): build
`{"data": table_data["data"], "columns": table_data["columns"]}` and add
`"explanations"` when the parsed explanations are truthy (a non-empty
list).  `none` models the branch raising (a `TypeError` from subscripting
propagates out of `scrape`, which re-raises). -/
def scrapeDictResult (tableData : PyTableVal)
    (explanations : Option (List (List (String × String)))) :
    Option (List (String × PyField)) :=
  match pySubscript tableData "data", pySubscript tableData "columns" with
  | some d, some c =>
    match explanations with
    | some e =>
      if e ≠ [] then
        some [("data", d), ("columns", c), ("explanations", PyField.expl e)]
      else some [("data", d), ("columns", c)]
    | none => some [("data", d), ("columns", c)]
  | _, _ => none

/-- One entry of `self.selected_variables` as tested by
`export_configuration` (line 793): either a Python list (whose elements,
at the call sites building the log, are `Optional[str]` selection results)
or a value of any other type. -/
inductive SelEntry where
  | pylist (items : List (Option String))
  | other
deriving DecidableEq

/-- One object of the exported `"variables"` array (scraper.py 794-799). -/
structure ExportedVariable where
  category : Option String
  subcategory : Option String
  item_name : Option String
  calculation_type : Option String
deriving DecidableEq

/-- The conversion applied by `export_configuration` to one entry:
a list of exactly four elements yields the
`{category, subcategory, item_name, calculation_type}` object, anything
else is skipped. -/
def entryToVar : SelEntry → Option ExportedVariable
  | SelEntry.pylist [c, s, i, t] => some ⟨c, s, i, t⟩
  | _ => none

/-- The `for var in self.selected_variables` loop of `export_configuration`
(scraper.py 792-799): append one object per entry that is a list of
exactly four elements. -/
def exportVariables (sel : List SelEntry) : List ExportedVariable :=
  sel.foldl
    (fun acc v =>
      match v with
      | SelEntry.pylist [c, s, i, t] => acc ++ [(⟨c, s, i, t⟩ : ExportedVariable)]
      | _ => acc) []

/-- The output path of `export_configuration` (scraper.py 782-783):
append `.json` when the given path does not already end with it. -/
def exportFilepath (filepath : String) : String :=
  if pyEndsWith filepath ".json" then filepath else filepath ++ ".json"

/-- `export_configuration` (scraper.py 771-810) modelled as the pair of
the path written to and the written JSON document, the document being its
`language` and `variables` fields. -/
def export_configuration (filepath language : String)
    (sel : List SelEntry) : String × String × List ExportedVariable :=
  (exportFilepath filepath, language, exportVariables sel)

/-! ### Lemmas about the selection resolver -/

theorem findExact_spec {α : Type} (t : String) (g : α → String) :
    ∀ l : List α, (∃ c ∈ l, g c = t) →
      ∃ c, g c = t ∧ (∃ l₁ l₂, l = l₁ ++ c :: l₂ ∧ ∀ x ∈ l₁, g x ≠ t) ∧
        findExact t g l = some c := by
  intro l
  induction l with
  | nil => rintro ⟨c, hc, -⟩; exact absurd hc (List.not_mem_nil c)
  | cons e rest ih =>
    intro hex
    by_cases h : t = g e
    · exact ⟨e, h.symm, ⟨[], rest, rfl, by intro x hx; exact absurd hx (List.not_mem_nil x)⟩,
        by simp [findExact, h]⟩
    · have hrest : ∃ c ∈ rest, g c = t := by
        obtain ⟨c, hc, hgc⟩ := hex
        rcases List.mem_cons.mp hc with rfl | hmem
        · exact absurd hgc.symm h
        · exact ⟨c, hmem, hgc⟩
      obtain ⟨c, hgc, ⟨l₁, l₂, hleq, hall⟩, hfind⟩ := ih hrest
      refine ⟨c, hgc, ⟨e :: l₁, l₂, by rw [hleq]; rfl, ?_⟩, by simp [findExact, h, hfind]⟩
      intro x hx
      rcases List.mem_cons.mp hx with rfl | hmem
      · exact fun hxe => h hxe.symm
      · exact hall x hmem

theorem findExact_eq_none {α : Type} (t : String) (g : α → String) :
    ∀ l : List α, (∀ c ∈ l, g c ≠ t) → findExact t g l = none := by
  intro l
  induction l with
  | nil => intro; rfl
  | cons e rest ih =>
    intro h
    have he : t ≠ g e := fun hte => h e (List.mem_cons_self e rest) hte.symm
    simp [findExact, he, ih fun c hc => h c (List.mem_cons_of_mem e hc)]

theorem findContained_eq_none {α : Type} (t : String) (g : α → String) :
    ∀ l : List α,
      (∀ c ∈ l, pyInStr t (g c) = false ∧ pyInStr (g c) t = false) →
      findContained t g l = none := by
  intro l
  induction l with
  | nil => intro; rfl
  | cons e rest ih =>
    intro h
    have he := h e (List.mem_cons_self e rest)
    simp [findContained, he.1, he.2,
      ih fun c hc => h c (List.mem_cons_of_mem e hc)]

/-- C3: when some candidate's display text is exactly equal to the text
target, `_select_base` selects the first such candidate in list order —
every candidate before it has a different display text, even one that
would satisfy the bidirectional containment rule — and returns the result
of activating it; the containment scan is never consulted. -/
theorem select_base_exact_match_first {α β : Type} (t : String)
    (C : List α) (g : α → String) (click : α → β)
    (hex : ∃ c ∈ C, g c = t) :
    ∃ c, g c = t ∧ (∃ l₁ l₂, C = l₁ ++ c :: l₂ ∧ ∀ x ∈ l₁, g x ≠ t) ∧
      select_base (SelectorValue.str t) C g click = some (click c) := by
  obtain ⟨c, hgc, hpos, hfind⟩ := findExact_spec t g C hex
  exact ⟨c, hgc, hpos, by simp [select_base, select_base_selected, hfind]⟩

/-- C3 witness: on candidates `["Exchange Rates", "Rates"]` with target
`"Rates"`, the earlier candidate `"Exchange Rates"` satisfies containment,
yet the exact match `"Rates"` is selected and activated. -/
theorem select_base_exact_match_first_witness :
    ∃ c, (fun s => s) c = "Rates" ∧
      (∃ l₁ l₂, (["Exchange Rates", "Rates"] : List String) = l₁ ++ c :: l₂ ∧
        ∀ x ∈ l₁, (fun s : String => s) x ≠ "Rates") ∧
      select_base (SelectorValue.str "Rates") ["Exchange Rates", "Rates"]
        (fun s => s) (fun s => s) = some ((fun s : String => s) c) :=
  select_base_exact_match_first "Rates" ["Exchange Rates", "Rates"]
    (fun s => s) (fun s => s) ⟨"Rates", by simp, rfl⟩

/-- C7: when no candidate's display text equals the text target and no
candidate satisfies bidirectional containment with it, `_select_base`
selects nothing — so the caller-supplied click function is never invoked
— and returns `None` without raising. -/
theorem select_base_no_match_none {α β : Type} (t : String) (C : List α)
    (g : α → String) (click : α → β)
    (hexact : ∀ c ∈ C, g c ≠ t)
    (hcont : ∀ c ∈ C, pyInStr t (g c) = false ∧ pyInStr (g c) t = false) :
    select_base_selected (SelectorValue.str t) C g = none ∧
      select_base (SelectorValue.str t) C g click = none := by
  have h1 := findExact_eq_none t g C hexact
  have h2 := findContained_eq_none t g C hcont
  constructor
  · simp [select_base_selected, h1, h2]
  · simp [select_base, select_base_selected, h1, h2]

/-- C7 witness: target `"zzz"` against candidates `["Prices", "Money"]`. -/
theorem select_base_no_match_none_witness :
    select_base_selected (SelectorValue.str "zzz") ["Prices", "Money"]
        (fun s => s) = none ∧
      select_base (SelectorValue.str "zzz") ["Prices", "Money"]
        (fun s => s) (fun s => s) = none :=
  select_base_no_match_none "zzz" ["Prices", "Money"] (fun s => s)
    (fun s => s) (by decide) (by decide)

/-- C6: for an ordinal selector `n` with `1 <= n <= len(C)`, `_select_base`
activates `C[n-1]` (the index is in range, so a candidate is selected);
for an ordinal outside that range it selects nothing and returns `None`
without raising; and in both cases the text function is never consulted:
the outcome is identical for any two text functions. -/
theorem select_base_ordinal_policy {α β : Type} (C : List α) (n : Int)
    (g g2 : α → String) (click : α → β) :
    (1 ≤ n → n ≤ (C.length : Int) →
        select_base (SelectorValue.int n) C g click =
          (C[(n - 1).toNat]?).map click ∧ (C[(n - 1).toNat]?).isSome = true) ∧
      (¬ (1 ≤ n ∧ n ≤ (C.length : Int)) →
        select_base (SelectorValue.int n) C g click = none) ∧
      select_base_selected (SelectorValue.int n) C g =
        select_base_selected (SelectorValue.int n) C g2 := by
  refine ⟨?_, ?_, rfl⟩
  · intro h1 h2
    constructor
    · simp [select_base, select_base_selected, h1, h2]
    · have hlt : (n - 1).toNat < C.length := by omega
      rw [List.getElem?_eq_getElem hlt]
      rfl
  · intro h
    simp [select_base, select_base_selected, h]

/-- C6 witness: ordinal 2 on a three-candidate list activates the second
candidate; ordinal 5 on the same list selects nothing. -/
theorem select_base_ordinal_policy_witness :
    (select_base (SelectorValue.int 2) ["a", "b", "c"] (fun s => s)
          (fun s => s) =
        ((["a", "b", "c"] : List String)[((2 : Int) - 1).toNat]?).map
          (fun s => s) ∧
      ((["a", "b", "c"] : List String)[((2 : Int) - 1).toNat]?).isSome =
        true) ∧
      select_base (SelectorValue.int 5) ["a", "b", "c"] (fun s => s)
        (fun s => s) = none :=
  ⟨(select_base_ordinal_policy ["a", "b", "c"] 2 (fun s => s) (fun s => s)
      (fun s => s)).1 (by decide) (by decide),
    (select_base_ordinal_policy ["a", "b", "c"] 5 (fun s => s)
      (fun s => s) (fun s => s)).2.1 (by decide)⟩

/-! ### Lemmas about the alternate target key -/

theorem string_mk_toList (s : String) : String.mk s.toList = s := rfl

theorem hyphen_append_toList (b a : String) :
    (b ++ "-" ++ a).toList = b.toList ++ '-' :: a.toList := by
  show (b ++ "-" ++ a).data = b.data ++ '-' :: a.data
  rw [String.data_append, String.data_append]
  simp [show ("-" : String).data = ['-'] from rfl]

theorem altKey_of_single_hyphen (b a : String)
    (hb : b.toList.count '-' = 0) (ha : a.toList.count '-' = 0) :
    altKey (b ++ "-" ++ a) = some (a ++ "-" ++ b) := by
  have htl := hyphen_append_toList b a
  have hb0 : List.count '-' b.data = 0 := hb
  have ha0 : List.count '-' a.data = 0 := ha
  have hcount : (b ++ "-" ++ a).toList.count '-' = 1 := by
    rw [htl]
    simp [List.count_append, List.count_cons, hb0, ha0]
  have hbmem : '-' ∉ b.toList := List.count_eq_zero.mp hb
  have hball : ∀ c ∈ b.toList, (decide (c ≠ '-')) = true := by
    intro c hc
    simp only [decide_eq_true_eq]
    rintro rfl
    exact hbmem hc
  unfold altKey
  rw [if_pos hcount, htl,
    List.takeWhile_append_of_pos hball, List.dropWhile_append_of_pos hball]
  simp [List.takeWhile_cons, List.dropWhile_cons, string_mk_toList]

theorem altKey_isSome_iff (t : String) :
    (altKey t).isSome = true ↔ t.toList.count '-' = 1 := by
  by_cases h : t.toList.count '-' = 1 <;> simp [altKey, h]

theorem matchesTarget_iff (t row : String) :
    matchesTarget t (altKey t) row = true ↔
      (row = t ∨ ∃ s, altKey t = some s ∧ row = s) := by
  cases h : altKey t <;> simp [matchesTarget, h]

/-- C4: `parse_table` derives an alternate target key exactly when the
target key contains exactly one hyphen (the two hyphen-delimited
components swapped); for zero or several hyphens no alternate exists, so
the target is matched literally; and a fetched row's key is accepted as
the target exactly when it equals the target key or equals the derived
alternate. -/
theorem parse_table_alternate_key_policy (b a t row : String) :
    (b.toList.count '-' = 0 → a.toList.count '-' = 0 →
        altKey (b ++ "-" ++ a) = some (a ++ "-" ++ b)) ∧
      ((altKey t).isSome = true ↔ t.toList.count '-' = 1) ∧
      (matchesTarget t (altKey t) row = true ↔
        (row = t ∨ ∃ s, altKey t = some s ∧ row = s)) :=
  ⟨fun hb ha => altKey_of_single_hyphen b a hb ha,
    altKey_isSome_iff t, matchesTarget_iff t row⟩

/-- C4 witness: the single-hyphen key `"01-2023"` gets the swapped
alternate `"2023-01"`, the hyphen-free key `"2023"` gets none, and the
acceptance test for target `"01-2023"` against row key `"2023-01"`
unfolds to the literal-or-alternate disjunction. -/
theorem parse_table_alternate_key_policy_witness :
    altKey ("01" ++ "-" ++ "2023") = some ("2023" ++ "-" ++ "01") ∧
      ((altKey "2023").isSome = true ↔
        ("2023" : String).toList.count '-' = 1) ∧
      (matchesTarget "01-2023" (altKey "01-2023") "2023-01" = true ↔
        (("2023-01" : String) = "01-2023" ∨
          ∃ s, altKey "01-2023" = some s ∧ "2023-01" = s)) :=
  ⟨(parse_table_alternate_key_policy "01" "2023" "2023" "2023-01").1
      (by decide) (by decide),
    (parse_table_alternate_key_policy "01" "2023" "2023" "2023-01").2.1,
    (parse_table_alternate_key_policy "01" "2023" "01-2023" "2023-01").2.2⟩

/-- C5 counterexample: the claim asserts that with target key `"2023-01"`
a fetched row key `"01-2023"` must NOT be treated as the target match;
the code derives the alternate `"01-2023"` from the target and the row
key equals it, so the acceptance test of scraper.py line 661 succeeds. -/
theorem swapped_target_matches_row :
    matchesTarget "2023-01" (altKey "2023-01") "01-2023" = true := by
  decide

/-- C5 amended: with target key `"2023-01"` (the already-swapped form)
a row key `"01-2023"` IS accepted as the target match, and it is accepted
precisely through the alternate derived from the target key — the target
`"2023-01"` has one hyphen, its swapped alternate is `"01-2023"`, and the
row key, which differs from the target literally and is never itself
swapped, equals that alternate. -/
theorem swapped_target_match_via_alternate :
    altKey "2023-01" = some "01-2023" ∧
      ("01-2023" : String) ≠ "2023-01" ∧
      matchesTarget "2023-01" (altKey "2023-01") "01-2023" = true := by
  decide

/-! ### Lemmas about the incremental table reader -/

theorem processRow_processedRows {columnNames : List String}
    {beginDate : String} {alt : Option String} {st : ReaderState}
    {cells : List String} :
    (processRow columnNames beginDate alt st cells).processedRows =
      st.processedRows := by
  unfold processRow
  repeat' split <;> try rfl

theorem processRow_of_found {columnNames : List String}
    {beginDate : String} {alt : Option String} {st : ReaderState}
    {cells : List String} (h : st.found = true) :
    processRow columnNames beginDate alt st cells = st := by
  simp [processRow, h]

theorem processBatch_of_found {columnNames : List String}
    {beginDate : String} {alt : Option String} :
    ∀ (rows : List (List String)) (st : ReaderState), st.found = true →
      processBatch columnNames beginDate alt st rows = st := by
  intro rows
  induction rows with
  | nil => intro st _; rfl
  | cons r rs ih =>
    intro st h
    show processBatch columnNames beginDate alt
      (processRow columnNames beginDate alt st r) rs = st
    rw [processRow_of_found h]
    exact ih st h

theorem processBatch_processedRows {columnNames : List String}
    {beginDate : String} {alt : Option String} :
    ∀ (rows : List (List String)) (st : ReaderState),
      (processBatch columnNames beginDate alt st rows).processedRows =
        st.processedRows := by
  intro rows
  induction rows with
  | nil => intro st; rfl
  | cons r rs ih =>
    intro st
    show (processBatch columnNames beginDate alt
      (processRow columnNames beginDate alt st r) rs).processedRows = _
    rw [ih, processRow_processedRows]

theorem processRow_found_iff {columnNames : List String}
    {beginDate : String} {alt : Option String} {st : ReaderState}
    {cells : List String} (h0 : st.processedRows = [])
    (hf : st.found = false) :
    (processRow columnNames beginDate alt st cells).found = true ↔
      rowTriggers columnNames beginDate alt cells = true := by
  cases cells with
  | nil => simp [processRow, rowTriggers, hf]
  | cons c0 rest =>
    by_cases h1 : pyStrip c0 = ""
    · simp [processRow, rowTriggers, hf, h0, h1]
    · by_cases h2 : columnNames.length ≤ rest.length + 1
      · by_cases h3 : matchesTarget beginDate alt (pyStrip c0) = true
        · simp [processRow, rowTriggers, hf, h0, h1, h2, h3]
        · simp [processRow, rowTriggers, hf, h0, h1, h2, h3]
      · simp [processRow, rowTriggers, hf, h0, h1, h2]

theorem processBatch_found_iff {columnNames : List String}
    {beginDate : String} {alt : Option String} :
    ∀ (rows : List (List String)) (st : ReaderState),
      st.processedRows = [] → st.found = false →
      ((processBatch columnNames beginDate alt st rows).found = true ↔
        ∃ cells ∈ rows,
          rowTriggers columnNames beginDate alt cells = true) := by
  intro rows
  induction rows with
  | nil => intro st _ hf; simp [processBatch, hf]
  | cons r rs ih =>
    intro st h0 hf
    rw [show processBatch columnNames beginDate alt st (r :: rs) =
      processBatch columnNames beginDate alt
        (processRow columnNames beginDate alt st r) rs from rfl]
    by_cases h : (processRow columnNames beginDate alt st r).found = true
    · rw [processBatch_of_found _ _ h]
      exact iff_of_true h
        ⟨r, List.mem_cons_self r rs, (processRow_found_iff h0 hf).mp h⟩
    · have hf1 : (processRow columnNames beginDate alt st r).found = false := by
        revert h
        cases (processRow columnNames beginDate alt st r).found <;> simp
      have h01 : (processRow columnNames beginDate alt st r).processedRows
          = [] := by
        rw [processRow_processedRows]; exact h0
      have hr : rowTriggers columnNames beginDate alt r = false := by
        cases htr : rowTriggers columnNames beginDate alt r
        · rfl
        · exact absurd ((processRow_found_iff h0 hf).mpr htr) h
      rw [ih _ h01 hf1]
      simp only [List.mem_cons]
      constructor
      · rintro ⟨c, hc, ht⟩
        exact ⟨c, Or.inr hc, ht⟩
      · rintro ⟨c, hc | hc, ht⟩
        · rw [hc, hr] at ht
          simp at ht
        · exact ⟨c, hc, ht⟩

theorem parseTableLoop_none {columnNames : List String}
    {beginDate : String} {alt : Option String}
    {batches : Nat → List (List String)}
    (hall : ∀ j, ∀ cells ∈ batches j,
      rowTriggers columnNames beginDate alt cells = false) :
    ∀ (fuel i : Nat) (st : ReaderState), st.processedRows = [] →
      st.found = false →
      parseTableLoop columnNames beginDate alt batches fuel i st = none := by
  intro fuel
  induction fuel with
  | zero => intro i st _ _; rfl
  | succ f ih =>
    intro i st h0 hf
    have hnf : (processBatch columnNames beginDate alt st (batches i)).found
        = false := by
      cases hb : (processBatch columnNames beginDate alt st (batches i)).found
      · rfl
      · obtain ⟨c, hc, ht⟩ :=
          (processBatch_found_iff (batches i) st h0 hf).mp hb
        rw [hall i c hc] at ht
        simp at ht
    have hstep : parseTableLoop columnNames beginDate alt batches (f + 1) i st
        = if (processBatch columnNames beginDate alt st (batches i)).found
          then some (processBatch columnNames beginDate alt st
            (batches i)).data
          else parseTableLoop columnNames beginDate alt batches f (i + 1)
            (processBatch columnNames beginDate alt st (batches i)) := rfl
    rw [hstep, if_neg (by simp [hnf])]
    exact ih (i + 1) _ (by rw [processBatch_processedRows]; exact h0) hnf

theorem parseTableLoop_some {columnNames : List String}
    {beginDate : String} {alt : Option String}
    {batches : Nat → List (List String)} :
    ∀ (fuel i : Nat) (st : ReaderState), st.processedRows = [] →
      st.found = false →
      (∃ j, j < fuel ∧ ∃ cells ∈ batches (i + j),
        rowTriggers columnNames beginDate alt cells = true) →
      ∃ out, parseTableLoop columnNames beginDate alt batches fuel i st
        = some out := by
  intro fuel
  induction fuel with
  | zero =>
    rintro i st _ _ ⟨j, hj, -⟩
    omega
  | succ f ih =>
    rintro i st h0 hf ⟨j, hj, cells, hmem, htrig⟩
    have hstep : parseTableLoop columnNames beginDate alt batches (f + 1) i st
        = if (processBatch columnNames beginDate alt st (batches i)).found
          then some (processBatch columnNames beginDate alt st
            (batches i)).data
          else parseTableLoop columnNames beginDate alt batches f (i + 1)
            (processBatch columnNames beginDate alt st (batches i)) := rfl
    by_cases h : (processBatch columnNames beginDate alt st (batches i)).found
        = true
    · exact ⟨_, by rw [hstep, if_pos h]⟩
    · have hf1 : (processBatch columnNames beginDate alt st (batches i)).found
          = false := by
        revert h
        cases (processBatch columnNames beginDate alt st (batches i)).found
          <;> simp
      have h01 : (processBatch columnNames beginDate alt st
          (batches i)).processedRows = [] := by
        rw [processBatch_processedRows]; exact h0
      have hj0 : j ≠ 0 := by
        rintro rfl
        exact h ((processBatch_found_iff (batches i) st h0 hf).mpr
          ⟨cells, by simpa using hmem, htrig⟩)
      obtain ⟨j2, rfl⟩ : ∃ j2, j = j2 + 1 := ⟨j - 1, by omega⟩
      have hmem2 : cells ∈ batches ((i + 1) + j2) := by
        have harith : (i + 1) + j2 = i + (j2 + 1) := by omega
        rw [harith]; exact hmem
      obtain ⟨out, hout⟩ := ih (i + 1) _ h01 hf1
        ⟨j2, by omega, cells, hmem2, htrig⟩
      exact ⟨out, by rw [hstep, if_neg (by simp [hf1])]; exact hout⟩

/-- C8: the scroll loop of `parse_table` carries no iteration or time
bound: there is a fuel making the fuel-indexed run return the accumulated
rows exactly when some fetched batch contains a row that sets
`found_begin_date` — a row with a first cell, a non-empty stripped key,
at least as many cells as column names, and a key equal to the target key
or to its single-hyphen alternate.  Equivalently, over any batch sequence
in which no fetched row is ever accepted as the target, the run returns
`none` for every fuel: the loop never terminates. -/
theorem parse_table_unbounded_termination (columnNames : List String)
    (beginDate : String) (batches : Nat → List (List String)) :
    (∃ fuel out, parse_table fuel columnNames beginDate batches = some out)
      ↔ ∃ i, ∃ cells ∈ batches i,
        rowTriggers columnNames beginDate (altKey beginDate) cells
          = true := by
  constructor
  · rintro ⟨fuel, out, hout⟩
    by_contra hno
    push_neg at hno
    have hall : ∀ j, ∀ cells ∈ batches j,
        rowTriggers columnNames beginDate (altKey beginDate) cells
          = false := by
      intro j cells hc
      cases htr : rowTriggers columnNames beginDate (altKey beginDate) cells
      · rfl
      · exact absurd htr (hno j cells hc)
    rw [parse_table, parseTableLoop_none hall fuel 0 ⟨[], [], false⟩ rfl rfl] at hout
    exact Option.noConfusion hout
  · rintro ⟨i, cells, hmem, htrig⟩
    obtain ⟨out, hout⟩ := parseTableLoop_some (i + 1) 0 ⟨[], [], false⟩ rfl rfl
      ⟨i, by omega, cells, by simpa using hmem, htrig⟩
    exact ⟨i + 1, out, hout⟩

/-- C1: the `processed_rows` set of `parse_table` (line 632) is checked on
line 651 but no key is ever added to it, so a row re-fetched in a later
scroll batch is appended to the output again.  With target `"01-2023"`,
the row keyed `"02-2023"`, visible in both the first and the second
batch, appears twice in the returned data — accumulation is not
idempotent under re-scans. -/
theorem parse_table_readds_reseen_key :
    parse_table 2 ["Date", "V1"] "01-2023"
        (fun i => if i = 0 then [["02-2023", "5"]]
          else if i = 1 then [["02-2023", "5"], ["01-2023", "7"]]
          else []) =
      some [[("Date", "02-2023"), ("V1", "5")],
        [("Date", "02-2023"), ("V1", "5")],
        [("Date", "01-2023"), ("V1", "7")]] := by
  decide

/-- C2 counterexample: with column names `["Date", "V1"]` and target
`"01-2023"`, the first visible batch holds the raw row `["02-2023"]` —
non-empty never-seen key but one cell against two column names — followed
by the full target row; the returned data holds only the target row.
The short row was dropped, not recorded as a truncated partial mapping,
refuting the claim as stated. -/
theorem short_row_absent_from_output :
    parse_table 1 ["Date", "V1"] "01-2023"
        (fun _ => [["02-2023"], ["01-2023", "7"]]) =
      some [[("Date", "01-2023"), ("V1", "7")]] := by
  decide

/-- C2 amended: a fetched raw row with fewer cells than there are column
names is skipped entirely by the guard on scraper.py line 652 — nothing
is appended to the output and the row is not even checked against the
target key: the whole reader state is left unchanged, whatever the row's
key is. -/
theorem short_row_skipped (columnNames : List String) (beginDate : String)
    (alt : Option String) (st : ReaderState) (cells : List String)
    (hshort : cells.length < columnNames.length) :
    processRow columnNames beginDate alt st cells = st := by
  cases cells with
  | nil => simp [processRow]
  | cons c0 rest =>
    have hle : ¬ columnNames.length ≤ rest.length + 1 := by
      simp only [List.length_cons] at hshort
      omega
    simp [processRow, hle]

/-- C2 amended witness: the one-cell row `["02-2023"]` against two column
names leaves the initial reader state untouched. -/
theorem short_row_skipped_witness :
    processRow ["Date", "V1"] "01-2023" none
        ⟨[], [], false⟩ ["02-2023"] = ⟨[], [], false⟩ :=
  short_row_skipped ["Date", "V1"] "01-2023" none ⟨[], [], false⟩
    ["02-2023"] (by decide)

/-- C9: on its success path `parse_table` returns the bare Python list
`data` (line 678); the `{"columns": [], "data": [], "row_count": 0}` dict
is returned only by the `except` handler (line 682).  The dict branch of
`scrape` (lines 473-479) subscripts the returned value with the strings
`"data"` and `"columns"`, which on the list raises `TypeError` instead of
producing the claimed `{data, columns}` mapping: concretely, a one-batch
table parses successfully to a list value on which the branch yields no
mapping, while the error-path dict value does support both lookups. -/
theorem scrape_dict_branch_fails_on_parsed_table :
    parseTableReturn 1 ["Date", "V1"] "01-2023"
        (fun _ => [["01-2023", "7"]]) =
      some (PyTableVal.plist [[("Date", "01-2023"), ("V1", "7")]]) ∧
      scrapeDictResult
        (PyTableVal.plist [[("Date", "01-2023"), ("V1", "7")]]) none
        = none ∧
      scrapeDictResult (PyTableVal.pdict [] [] 0) none =
        some [("data", PyField.rows []), ("columns", PyField.cols [])] := by
  decide

/-! ### Lemmas about the configuration export -/

theorem exportVariables_foldl (f : List ExportedVariable → SelEntry →
    List ExportedVariable)
    (hf : f = fun acc v =>
      match v with
      | SelEntry.pylist [c, s, i, t] =>
        acc ++ [(⟨c, s, i, t⟩ : ExportedVariable)]
      | _ => acc) :
    ∀ (sel : List SelEntry) (acc : List ExportedVariable),
      sel.foldl f acc = acc ++ sel.filterMap entryToVar := by
  intro sel
  induction sel with
  | nil => intro acc; simp
  | cons v vs ih =>
    intro acc
    have hstep : f acc v = acc ++ (entryToVar v).toList := by
      subst hf
      cases v with
      | other => simp [entryToVar]
      | pylist items =>
        match items with
        | [] => simp [entryToVar]
        | [a] => simp [entryToVar]
        | [a, b] => simp [entryToVar]
        | [a, b, c] => simp [entryToVar]
        | [a, b, c, d] => simp [entryToVar]
        | a :: b :: c :: d :: e :: rest => simp [entryToVar]
    rw [List.foldl_cons, ih, hstep, List.filterMap_cons]
    cases h : entryToVar v <;> simp [h]

/-- C10: `export_configuration` writes to the given path with a `.json`
suffix appended exactly when the path does not already end in `.json`,
and the `variables` array of the written document contains exactly, in
order, one `{category, subcategory, item_name, calculation_type}` object
for each entry of `selected_variables` that is a list of exactly four
elements, every entry of any other shape or length being silently
omitted. -/
theorem export_configuration_spec (filepath language : String)
    (sel : List SelEntry) :
    (pyEndsWith filepath ".json" = false →
        (export_configuration filepath language sel).1 =
          filepath ++ ".json") ∧
      (pyEndsWith filepath ".json" = true →
        (export_configuration filepath language sel).1 = filepath) ∧
      (export_configuration filepath language sel).2.2 =
        sel.filterMap entryToVar := by
  refine ⟨fun h => ?_, fun h => ?_, ?_⟩
  · simp [export_configuration, exportFilepath, h]
  · simp [export_configuration, exportFilepath, h]
  · show exportVariables sel = sel.filterMap entryToVar
    unfold exportVariables
    rw [exportVariables_foldl _ rfl sel []]
    rfl

/-- C10 witness: a path without the suffix gets `.json` appended, a path
with it is kept, and of a three-entry log only the four-element list
survives into the `variables` array. -/
theorem export_configuration_spec_witness :
    (export_configuration "conf" "english"
        [SelEntry.pylist [some "a", some "b", some "c", some "d"],
          SelEntry.other, SelEntry.pylist [some "x"]]).1 =
      "conf" ++ ".json" ∧
      (export_configuration "conf.json" "english"
          [SelEntry.pylist [some "a", some "b", some "c", some "d"],
            SelEntry.other, SelEntry.pylist [some "x"]]).1 = "conf.json" ∧
      (export_configuration "conf" "english"
          [SelEntry.pylist [some "a", some "b", some "c", some "d"],
            SelEntry.other, SelEntry.pylist [some "x"]]).2.2 =
        ([SelEntry.pylist [some "a", some "b", some "c", some "d"],
          SelEntry.other,
          SelEntry.pylist [some "x"]].filterMap entryToVar) :=
  ⟨(export_configuration_spec "conf" "english" _).1 (by decide),
    (export_configuration_spec "conf.json" "english" _).2.1 (by decide),
    (export_configuration_spec "conf" "english" _).2.2⟩
